import Mathlib

/-!
Verification development for the SGDET-Annotate annotation tool
(`src/main.py`).  The annotation session state machine is embedded
shallowly: the Tkinter widget layer is dropped, every event handler of
the `AnnotationTool` class becomes a pure function on an explicit
session state, and Python object identity of bounding-box dicts is
modelled by a unique `key` carried by each box (Python compares box
dicts with `==`, which coincides with identity here because every box
holds a distinct canvas `rect_id`).
-/

namespace SGDET

/-- A confirmed bounding box (`confirmed` dict in `confirm_label_assignment`).
`key` models the identity of the Python dict (its unique canvas ids);
`label` is the numeric label id, `id` the per-label instance id,
`labelStr` the vocabulary string. -/
structure Box where
  key : Nat
  x1 : Int
  y1 : Int
  x2 : Int
  y2 : Int
  label : Nat
  id : Nat
  labelStr : String
  selected : Bool
  attributes : List String
deriving DecidableEq, Repr

/-- Python `dict.get(k, 0)` for the string-keyed integer dicts
(`label_counts`, `labels_mapping`, `relationships_mapping`). -/
def dictGet (m : List (String × Nat)) (k : String) : Nat :=
  match m with
  | [] => 0
  | (k', v) :: rest => if k' = k then v else dictGet rest k

/-- Python `d[k] = v` on the same dicts. -/
def dictSet (m : List (String × Nat)) (k : String) (v : Nat) : List (String × Nat) :=
  match m with
  | [] => [(k, v)]
  | (k', v') :: rest => if k' = k then (k, v) :: rest else (k', v') :: dictSet rest k v

/-- The mutable state of `AnnotationTool` (only the fields the session
state machine reads or writes; pure rendering state is dropped).
Relationship edges store the `key` of their source and target boxes,
mirroring the Python tuples that store references to the box dicts. -/
structure AState where
  loadedImage : Option (Nat × Nat)
  imageArea : Option (Int × Int × Int × Int)
  createBBoxActive : Bool
  handlingNewBbox : Bool
  startX : Option Int
  startY : Option Int
  tempRect : Bool
  pendingBbox : Option (Int × Int × Int × Int)
  confirmedBboxes : List Box
  labelCounts : List (String × Nat)
  selectedBbox : Option Nat
  changeLabelMode : Bool
  changeBbox : Option Nat
  changeOldLabel : Option String
  attributeAddMode : Bool
  relationshipMode : Bool
  sourceBbox : Option Nat
  pendingRelationship : String
  relationships : List (Nat × String × Nat)
  predicates : List Nat
  labelsMapping : List (String × Nat)
  attributesMapping : List (String × Nat)
  relationshipsMapping : List (String × Nat)
  nextKey : Nat
deriving DecidableEq, Repr

/-- The state right after `__init__` (empty session, nothing loaded). -/
def initState : AState :=
  { loadedImage := none, imageArea := none, createBBoxActive := false,
    handlingNewBbox := false, startX := none, startY := none, tempRect := false,
    pendingBbox := none, confirmedBboxes := [], labelCounts := [],
    selectedBbox := none, changeLabelMode := false, changeBbox := none,
    changeOldLabel := none, attributeAddMode := false, relationshipMode := false,
    sourceBbox := none, pendingRelationship := "", relationships := [],
    predicates := [], labelsMapping := [], attributesMapping := [],
    relationshipsMapping := [], nextKey := 0 }

/-- `x1 <= x <= x2 and y1 <= y <= y2` test used by both hit-test loops. -/
def containsPt (b : Box) (x y : Int) : Bool :=
  decide (b.x1 ≤ x) && decide (x ≤ b.x2) && decide (b.y1 ≤ y) && decide (y ≤ b.y2)

/-- `(x2 - x1) * (y2 - y1)` as computed in the hit-test loops. -/
def area (b : Box) : Int :=
  (b.x2 - b.x1) * (b.y2 - b.y1)

/-- Look up a confirmed box by its identity key. -/
def findBox (s : AState) (k : Nat) : Option Box :=
  s.confirmedBboxes.find? (fun b => decide (b.key = k))

/-- One iteration of the smallest-containing-box loop shared by
`_get_confirmed_bbox_at` and `_get_confirmed_second_bbox_relationship`. -/
def smallestStep (x y : Int) (acc : Option Box) (b : Box) : Option Box :=
  if containsPt b x y then
    match acc with
    | none => some b
    | some c => if area b < area c then some b else some c
  else acc

/-- The full loop: smallest-area confirmed box containing the point,
first wins on ties (`area < smallest_area` keeps the earlier box). -/
def smallestContaining (l : List Box) (x y : Int) : Option Box :=
  l.foldl (smallestStep x y) none

/-- `_get_confirmed_bbox_at`: when a box is selected only that box is
tested (deselection-only semantics); otherwise the smallest containing
box is returned. -/
def getConfirmedBboxAt (s : AState) (x y : Int) : Option Box :=
  match s.selectedBbox with
  | some k =>
    match findBox s k with
    | some b => if containsPt b x y then some b else none
    | none => none
  | none => smallestContaining s.confirmedBboxes x y

/-- `_inside_image_area`. -/
def insideImageArea (s : AState) (x y : Int) : Bool :=
  match s.imageArea with
  | none => false
  | some (ax, ay, aw, ah) =>
    decide (ax ≤ x) && decide (x ≤ ax + aw) && decide (ay ≤ y) && decide (y ≤ ay + ah)

/-- Apply `f` to the confirmed box(es) with identity `k` (in Python this
is in-place mutation of the unique dict with that identity). -/
def updateBox (bs : List Box) (k : Nat) (f : Box → Box) : List Box :=
  bs.map (fun b => if b.key = k then f b else b)

/-- User-visible warning messages raised by the handlers (the
`messagebox.showwarning` calls that matter to the claims). -/
inductive Warn where
  | invalidTarget
  | sameAsSource
  | duplicateRel
  | changeSameLabel
  | dupAttribute
  | attrLimit
deriving DecidableEq, Repr

/-- Clear the `selected` flag of the box with identity `k`. -/
def clearSelectedFlag (s : AState) (k : Nat) : AState :=
  { s with confirmedBboxes :=
      updateBox s.confirmedBboxes k (fun b => { b with selected := false }) }

/-- `_deselect_bbox`: clears the box's selected flag; the global
selection is cleared only when it pointed at this very box. -/
def deselectBbox (s : AState) (k : Nat) : AState :=
  if s.selectedBbox = some k then { clearSelectedFlag s k with selectedBbox := none }
  else clearSelectedFlag s k

/-- Set the `selected` flag of box `k` and record it as the selection. -/
def markSelected (s : AState) (k : Nat) : AState :=
  { s with
    confirmedBboxes := updateBox s.confirmedBboxes k (fun b => { b with selected := true }),
    selectedBbox := some k }

/-- `_select_bbox`: no-op during create/attribute/relationship modes;
otherwise deselects any other selected box and selects this one. -/
def selectBbox (s : AState) (k : Nat) : AState :=
  if s.createBBoxActive || s.attributeAddMode || s.relationshipMode then s
  else
    match s.selectedBbox with
    | some k0 => if k0 ≠ k then markSelected (deselectBbox s k0) k else markSelected s k
    | none => markSelected s k

/-- The selection-toggling part of `on_canvas_click`: select the clicked
box when nothing is selected, deselect it when it is the selected one. -/
def toggleClick (s : AState) (x y : Int) : AState :=
  match getConfirmedBboxAt s x y with
  | some b =>
    match s.selectedBbox with
    | none => selectBbox s b.key
    | some k0 => if k0 = b.key then deselectBbox s b.key else s
  | none => s

/-- The relationship-target part of `on_canvas_click` (reached in
relationship mode after the selection toggle).  `confirmRel` is the
outcome of the `askokcancel` confirmation gate. -/
def relTargetClick (s1 : AState) (x y : Int) (confirmRel : Bool) : AState × Option Warn :=
  if s1.pendingRelationship = "" then (s1, none)
  else
    match smallestContaining s1.confirmedBboxes x y with
    | none => (s1, some Warn.invalidTarget)
    | some target =>
      if some target.key = s1.sourceBbox then (s1, some Warn.sameAsSource)
      else if s1.relationships.any (fun r =>
             decide (some r.1 = s1.sourceBbox) && decide (r.2.1 = s1.pendingRelationship)
             && decide (r.2.2 = target.key)) then
        ({ s1 with relationshipMode := false, sourceBbox := none, pendingRelationship := "" },
         some Warn.duplicateRel)
      else if confirmRel then
        ({ s1 with
            relationships := s1.relationships
              ++ [(s1.sourceBbox.getD 0, s1.pendingRelationship, target.key)],
            predicates := s1.predicates
              ++ [dictGet s1.relationshipsMapping s1.pendingRelationship],
            relationshipMode := false, sourceBbox := none, pendingRelationship := "" }, none)
      else
        ({ s1 with relationshipMode := false, sourceBbox := none, pendingRelationship := "" },
         none)

/-- `on_canvas_click` for a left click at `(x, y)`.  In create mode it
starts a drawing gesture; otherwise it may toggle selection and, in
relationship mode, interprets the click as the target-box pick. -/
def onCanvasClick (s : AState) (x y : Int) (confirmRel : Bool) : AState × Option Warn :=
  if s.createBBoxActive then
    if s.imageArea.isSome && insideImageArea s x y && !s.handlingNewBbox then
      ({ s with startX := some x, startY := some y, tempRect := true,
                handlingNewBbox := true }, none)
    else (s, none)
  else
    if (s.attributeAddMode || s.relationshipMode || s.changeLabelMode)
        && decide (Option.map Box.key (getConfirmedBboxAt s x y) = s.selectedBbox) then
      (s, none)
    else
      if (toggleClick s x y).relationshipMode then
        relTargetClick (toggleClick s x y) x y confirmRel
      else (toggleClick s x y, none)

/-- `confirm_label_assignment` with the outcome of the `askokcancel`
gate.  The handler is only ever invoked with a pending box present
(guarded by `on_label_select`); with no pending box it does nothing. -/
def confirmLabelAssignment (s : AState) (label : String) (answer : Bool) : AState :=
  if answer then
    match s.pendingBbox with
    | none => s
    | some (px1, py1, px2, py2) =>
      { s with
        pendingBbox := none,
        labelCounts := dictSet s.labelCounts label (dictGet s.labelCounts label + 1),
        confirmedBboxes := s.confirmedBboxes ++
          [{ key := s.nextKey, x1 := px1, y1 := py1, x2 := px2, y2 := py2,
             label := dictGet s.labelsMapping label,
             id := dictGet s.labelCounts label + 1,
             labelStr := label, selected := false, attributes := [] }],
        handlingNewBbox := false,
        nextKey := s.nextKey + 1 }
  else s

/-- `on_label_select` (double-click on the imported label list) with the
outcome of its `askokcancel` gate.  In change-label mode it performs the
relabel (same label is rejected with a warning); otherwise, with a
pending box, it runs `confirm_label_assignment`.  The Python loop that
rewrites relationship tuples reinstalls the very same box references,
so with key-valued edges the edge list is unchanged. -/
def onLabelSelect (s : AState) (label : String) (ans : Bool) : AState × Option Warn :=
  if s.changeLabelMode then
    if some label = s.changeOldLabel then (s, some Warn.changeSameLabel)
    else if ans then
      match s.changeBbox with
      | none => (s, none)
      | some k =>
        ({ s with
            labelCounts := dictSet s.labelCounts label (dictGet s.labelCounts label + 1),
            confirmedBboxes := updateBox s.confirmedBboxes k (fun b =>
              { b with label := dictGet s.labelsMapping label,
                       id := dictGet s.labelCounts label + 1,
                       labelStr := label }),
            changeLabelMode := false, changeBbox := none, changeOldLabel := none }, none)
    else (s, none)
  else if s.pendingBbox.isSome then (confirmLabelAssignment s label ans, none)
  else (s, none)

/-- Append `attrName` to the attribute list of the box with identity
`k` (in-place mutation of the selected box dict in Python). -/
def attrAppend (s : AState) (k : Nat) (attrName : String) : AState :=
  { s with confirmedBboxes :=
      updateBox s.confirmedBboxes k (fun bb =>
        { bb with attributes := bb.attributes ++ [attrName] }) }

/-- `on_attr_double_click` with the `askyesnocancel` outcome (`result`:
`some true` = yes, `some false` = no, `none` = cancel) and the follow-up
`askyesno` "add another?" outcome (`addMore`).  The handler is reached
with a box selected (attribute mode is entered only then). -/
def onAttrDoubleClick (s : AState) (attrName : String) (result : Option Bool)
    (addMore : Bool) : AState × Option Warn :=
  if s.attributeAddMode then
    match s.selectedBbox with
    | none => (s, none)
    | some k =>
      match findBox s k with
      | none => (s, none)
      | some b =>
        if attrName ∈ b.attributes then (s, some Warn.dupAttribute)
        else if b.attributes.length ≥ 10 then
          ({ s with attributeAddMode := false }, some Warn.attrLimit)
        else
          match result with
          | none => ({ s with attributeAddMode := false }, none)
          | some true =>
            if addMore then (attrAppend s k attrName, none)
            else ({ attrAppend s k attrName with attributeAddMode := false }, none)
          | some false => (s, none)
  else (s, none)

/-- `remove_bbox` with the outcome of its confirmation gate.  The
relationship list is filtered; the predicate list is then rebuilt by
indexing the old predicate list at positions `0 .. |newRels| - 1`,
mirroring the source's `enumerate` over the already-filtered
relationship list (out-of-range indexing cannot occur since the new
list is never longer than the old one). -/
def remainingRels (s : AState) (k : Nat) : List (Nat × String × Nat) :=
  s.relationships.filter (fun r => !(decide (r.1 = k)) && !(decide (r.2.2 = k)))

def removeBbox (s : AState) (ans : Bool) : AState :=
  match s.selectedBbox with
  | none => s
  | some k =>
    if ans then
      { s with
        relationships := remainingRels s k,
        predicates := (List.range (remainingRels s k).length).map
          (fun i => s.predicates.getD i 0),
        confirmedBboxes := s.confirmedBboxes.filter (fun b => !(decide (b.key = k))),
        selectedBbox := none }
    else s

/-- The indices into the full relationship list that are shown in the
relationship view: all of them, or only those whose source is the
selected box. -/
def displayedIndices (s : AState) : List Nat :=
  (List.range s.relationships.length).filter (fun i =>
    match s.selectedBbox with
    | none => true
    | some k => decide ((s.relationships.getD i (0, "", 0)).1 = k))

/-- `remove_relationship`: removes the edge at the clicked display index
together with the predicate at the same full-list position (the
predicate pop is guarded by the list being nonempty). -/
def removeRelationship (s : AState) (index : Nat) (ans : Bool) : AState :=
  if ans then
    if index < (displayedIndices s).length then
      { s with
        relationships := s.relationships.eraseIdx ((displayedIndices s).getD index 0),
        predicates :=
          if s.predicates.isEmpty then s.predicates
          else s.predicates.eraseIdx ((displayedIndices s).getD index 0) }
    else s
  else s

/-- The `"label:id"` display string of a box. -/
def boxEntry (b : Box) : String :=
  b.labelStr ++ ":" ++ toString b.id

/-- Display string of the box with identity `k` as read through a
relationship edge (edges hold references, so this is a live lookup). -/
def boxStr (s : AState) (k : Nat) : String :=
  match findBox s k with
  | some b => boxEntry b
  | none => ""

/-- One rendered line of the relationship view. -/
def renderEdge (s : AState) (r : Nat × String × Nat) : String :=
  boxStr s r.1 ++ " --- " ++ r.2.1 ++ " --- " ++ boxStr s r.2.2

/-- `update_relationship_view`: all edges, or only those whose source is
the selected box. -/
def updateRelationshipView (s : AState) : List String :=
  s.relationships.filterMap (fun r =>
    match s.selectedBbox with
    | some k => if r.1 ≠ k then none else some (renderEdge s r)
    | none => some (renderEdge s r))

/-- `on_labeled_select` (selection in the labeled listbox), driven by
the text of the clicked entry. -/
def onLabeledSelect (s : AState) (entry : String) : AState :=
  if s.createBBoxActive || s.attributeAddMode || s.relationshipMode then s
  else
    match s.confirmedBboxes.find? (fun bb => decide (boxEntry bb = entry)) with
    | none => s
    | some found =>
      if s.selectedBbox = some found.key then deselectBbox s found.key
      else
        match s.selectedBbox with
        | some k0 => selectBbox (deselectBbox s k0) found.key
        | none => selectBbox s found.key

/-- The state-clearing prefix of `open_image`, executed as soon as a
file path was chosen — before any decode attempt.  `imageArea`, the
vocabularies and their listbox contents are left untouched. -/
def clearedForOpen (s : AState) : AState :=
  { s with
    confirmedBboxes := [], pendingBbox := none, relationships := [],
    predicates := [], labelCounts := [], selectedBbox := none,
    createBBoxActive := false, startX := none, startY := none, tempRect := false,
    handlingNewBbox := false, changeLabelMode := false, changeBbox := none,
    changeOldLabel := none, attributeAddMode := false, relationshipMode := false,
    loadedImage := none }

/-- `open_image` once a file path was chosen.  `decoded` is the result
of `Image.open` + EXIF transpose: `none` when decoding raises (the
handler then only shows an error message), `some (w, h)` on success.
Display geometry follows `scale = min(cw/w, ch/h)` with truncating
casts and centred integer offsets. -/
def openImage (s : AState) (decoded : Option (Nat × Nat)) (canvasW canvasH : Int) :
    AState × Bool :=
  let s0 := clearedForOpen s
  match decoded with
  | none => (s0, true)
  | some (w, h) =>
    let scale : ℚ := min ((canvasW : ℚ) / (w : ℚ)) ((canvasH : ℚ) / (h : ℚ))
    let newW : Int := Int.floor ((w : ℚ) * scale)
    let newH : Int := Int.floor ((h : ℚ) * scale)
    ({ s0 with
        loadedImage := some (w, h),
        imageArea := some ((canvasW - newW) / 2, (canvasH - newH) / 2, newW, newH) },
     false)

/-! ### Helper lemmas about the hit-test loop and box lookup -/

lemma smallestStep_eq_some (x y : Int) (acc : Option Box) (b c : Box)
    (h : smallestStep x y acc b = some c) :
    acc = some c ∨ (c = b ∧ containsPt b x y = true) := by
  cases acc with
  | none =>
    by_cases hb : containsPt b x y
    · simp [smallestStep, hb] at h
      exact Or.inr ⟨h.symm, hb⟩
    · simp [smallestStep, hb] at h
  | some d =>
    by_cases hb : containsPt b x y
    · simp [smallestStep, hb] at h
      split at h
      · exact Or.inr ⟨(Option.some.inj h).symm, hb⟩
      · exact Or.inl (by rw [Option.some.inj h])
    · simp [smallestStep, hb] at h
      exact Or.inl (by rw [h])

lemma smallestStep_contains (x y : Int) (acc : Option Box) (b c : Box)
    (hacc : ∀ d, acc = some d → containsPt d x y = true)
    (h : smallestStep x y acc b = some c) : containsPt c x y = true := by
  rcases smallestStep_eq_some x y acc b c h with h1 | ⟨h1, h2⟩
  · exact hacc c h1
  · rw [h1]; exact h2

lemma smallestStep_le (x y : Int) (acc : Option Box) (b c : Box)
    (h : smallestStep x y acc b = some c) :
    (∀ d, acc = some d → area c ≤ area d) ∧
    (containsPt b x y = true → area c ≤ area b) := by
  cases acc with
  | none =>
    by_cases hb : containsPt b x y
    · simp [smallestStep, hb] at h
      refine ⟨?_, ?_⟩
      · intro d hd
        cases hd
      · intro _
        rw [← h]
    · simp [smallestStep, hb] at h
  | some d =>
    by_cases hb : containsPt b x y
    · simp [smallestStep, hb] at h
      split at h
      · rename_i hlt
        injection h with h
        refine ⟨?_, ?_⟩
        · intro e he
          injection he with he
          subst he
          rw [← h]
          exact le_of_lt hlt
        · intro _
          rw [← h]
      · rename_i hlt
        injection h with h
        refine ⟨?_, ?_⟩
        · intro e he
          injection he with he
          subst he
          rw [← h]
        · intro _
          rw [← h]
          exact le_of_not_lt hlt
    · simp [smallestStep, hb] at h
      refine ⟨?_, ?_⟩
      · intro e he
        injection he with he
        subst he
        rw [← h]
      · intro hc
        exact absurd hc hb

lemma smallestStep_isSome_of_acc (x y : Int) (acc : Option Box) (b : Box)
    (h : acc.isSome) : (smallestStep x y acc b).isSome := by
  cases acc with
  | none => cases h
  | some d =>
    by_cases hb : containsPt b x y <;> simp [smallestStep, hb]
    split <;> simp

lemma smallestStep_isSome_of_contains (x y : Int) (acc : Option Box) (b : Box)
    (h : containsPt b x y = true) : (smallestStep x y acc b).isSome := by
  cases acc with
  | none => simp [smallestStep, h]
  | some d =>
    simp [smallestStep, h]
    split <;> simp

lemma foldl_smallest_mem (x y : Int) :
    ∀ (l : List Box) (acc : Option Box) (b : Box),
      l.foldl (smallestStep x y) acc = some b → acc = some b ∨ b ∈ l := by
  intro l
  induction l with
  | nil => intro acc b h; exact Or.inl h
  | cons hd tl ih =>
    intro acc b h
    rcases ih (smallestStep x y acc hd) b h with h1 | h1
    · rcases smallestStep_eq_some x y acc hd b h1 with h2 | ⟨h2, _⟩
      · exact Or.inl h2
      · exact Or.inr (by rw [h2]; exact List.mem_cons_self hd tl)
    · exact Or.inr (List.mem_cons_of_mem hd h1)

lemma foldl_smallest_contains (x y : Int) :
    ∀ (l : List Box) (acc : Option Box) (b : Box),
      (∀ d, acc = some d → containsPt d x y = true) →
      l.foldl (smallestStep x y) acc = some b → containsPt b x y = true := by
  intro l
  induction l with
  | nil => intro acc b hacc h; exact hacc b h
  | cons hd tl ih =>
    intro acc b hacc h
    exact ih (smallestStep x y acc hd) b
      (fun d hd' => smallestStep_contains x y acc hd d hacc hd') h

lemma foldl_smallest_min (x y : Int) :
    ∀ (l : List Box) (acc : Option Box) (b : Box),
      l.foldl (smallestStep x y) acc = some b →
      (∀ d, acc = some d → area b ≤ area d) ∧
      (∀ c ∈ l, containsPt c x y = true → area b ≤ area c) := by
  intro l
  induction l with
  | nil =>
    intro acc b h
    exact ⟨fun d hd => by rw [hd] at h; cases h; rfl, by intro c hc; cases hc⟩
  | cons hd tl ih =>
    intro acc b h
    have hstep := ih (smallestStep x y acc hd) b h
    constructor
    · intro d hd'
      have hs : (smallestStep x y acc hd).isSome :=
        smallestStep_isSome_of_acc x y acc hd (by rw [hd']; rfl)
      rcases Option.isSome_iff_exists.mp hs with ⟨e, he⟩
      have h1 := hstep.1 e he
      have h2 := (smallestStep_le x y acc hd e he).1 d hd'
      exact le_trans h1 h2
    · intro c hc hcont
      rcases List.mem_cons.mp hc with h1 | h1
      · subst h1
        have hs : (smallestStep x y acc c).isSome :=
          smallestStep_isSome_of_contains x y acc c hcont
        rcases Option.isSome_iff_exists.mp hs with ⟨e, he⟩
        have h1 := hstep.1 e he
        have h2 := (smallestStep_le x y acc c e he).2 hcont
        exact le_trans h1 h2
      · exact hstep.2 c h1 hcont

lemma foldl_smallest_isSome (x y : Int) :
    ∀ (l : List Box) (acc : Option Box),
      (acc.isSome ∨ ∃ c ∈ l, containsPt c x y = true) →
      (l.foldl (smallestStep x y) acc).isSome := by
  intro l
  induction l with
  | nil =>
    intro acc h
    rcases h with h | ⟨c, hc, _⟩
    · exact h
    · cases hc
  | cons hd tl ih =>
    intro acc h
    rcases h with h | ⟨c, hc, hcont⟩
    · exact ih (smallestStep x y acc hd)
        (Or.inl (smallestStep_isSome_of_acc x y acc hd h))
    · rcases List.mem_cons.mp hc with h1 | h1
      · subst h1
        exact ih (smallestStep x y acc c)
          (Or.inl (smallestStep_isSome_of_contains x y acc c hcont))
      · exact ih (smallestStep x y acc hd) (Or.inr ⟨c, h1, hcont⟩)

lemma smallestContaining_contains {l : List Box} {x y : Int} {b : Box}
    (h : smallestContaining l x y = some b) : containsPt b x y = true :=
  foldl_smallest_contains x y l none b (by intro d hd; cases hd) h

lemma smallestContaining_mem {l : List Box} {x y : Int} {b : Box}
    (h : smallestContaining l x y = some b) : b ∈ l := by
  rcases foldl_smallest_mem x y l none b h with h1 | h1
  · cases h1
  · exact h1

lemma smallestContaining_min {l : List Box} {x y : Int} {b : Box}
    (h : smallestContaining l x y = some b) :
    ∀ c ∈ l, containsPt c x y = true → area b ≤ area c :=
  (foldl_smallest_min x y l none b h).2

lemma smallestContaining_isSome {l : List Box} {x y : Int} {c : Box}
    (hc : c ∈ l) (hcont : containsPt c x y = true) :
    (smallestContaining l x y).isSome :=
  foldl_smallest_isSome x y l none (Or.inr ⟨c, hc, hcont⟩)

lemma findBox_key {s : AState} {k : Nat} {b : Box}
    (h : findBox s k = some b) : b.key = k := by
  have := List.find?_some h
  exact of_decide_eq_true this

lemma findBox_mem {s : AState} {k : Nat} {b : Box}
    (h : findBox s k = some b) : b ∈ s.confirmedBboxes :=
  List.mem_of_find?_eq_some h

/-! ### Concrete session states used as inputs and witnesses -/

def boxBig : Box :=
  { key := 1, x1 := 0, y1 := 0, x2 := 100, y2 := 100, label := 1, id := 1,
    labelStr := "person", selected := true, attributes := [] }

def boxSmall : Box :=
  { key := 2, x1 := 200, y1 := 0, x2 := 260, y2 := 60, label := 2, id := 1,
    labelStr := "dog", selected := false, attributes := [] }

def boxThird : Box :=
  { key := 3, x1 := 300, y1 := 0, x2 := 340, y2 := 40, label := 3, id := 1,
    labelStr := "cat", selected := false, attributes := [] }

/-- Three boxes, two edges; the first box is selected for removal. -/
def sC1 : AState :=
  { initState with
    confirmedBboxes := [boxBig, boxSmall, boxThird],
    relationships := [(1, "left of", 2), (2, "above", 3)],
    predicates := [7, 9],
    selectedBbox := some 1,
    labelCounts := [("person", 1), ("dog", 1), ("cat", 1)] }

/-- A session with one confirmed box, about to open a new image. -/
def sC2 : AState :=
  { initState with
    confirmedBboxes := [boxBig],
    selectedBbox := some 1,
    labelCounts := [("person", 1)] }

/-- Relationship mode, predicate chosen, awaiting the target click; the
only box is the selected source. -/
def sC3 : AState :=
  { initState with
    confirmedBboxes := [boxBig],
    selectedBbox := some 1,
    relationshipMode := true,
    sourceBbox := some 1,
    pendingRelationship := "left of",
    labelCounts := [("person", 1)],
    relationshipsMapping := [("left of", 4)] }

/-! ### Claim C1 -/

/-- Claim C1 (code bug): removing the selected box removes every edge it
touches, but the predicate list is rebuilt as a prefix of the old one
rather than by deleting the removed edges' positions.  At this input the
surviving edge `(2, "above", 3)` was added with predicate id 9, yet
after the removal it is paired with predicate id 7, the id of the
removed edge. -/
theorem claim_C1_remove_bbox_misaligns_predicates :
    (removeBbox sC1 true).relationships = [(2, "above", 3)] ∧
    (removeBbox sC1 true).predicates = [7] ∧
    sC1.relationships.getD 1 (0, "", 0) = (2, "above", 3) ∧
    sC1.predicates.getD 1 0 = 9 ∧ (7 : Nat) ≠ 9 := by
  refine ⟨by decide, by decide, by decide, by decide, by decide⟩

/-! ### Claim C2 -/

/-- Claim C2, counterexample: opening an image whose decode fails leaves
the session visibly changed — the confirmed boxes and the per-label
counters of `sC2` are gone even though the open reported an error. -/
theorem claim_C2_counterexample :
    (openImage sC2 none 1600 900).2 = true ∧
    (openImage sC2 none 1600 900).1.confirmedBboxes ≠ sC2.confirmedBboxes ∧
    (openImage sC2 none 1600 900).1.labelCounts ≠ sC2.labelCounts := by
  refine ⟨by decide, by decide, by decide⟩

/-- Claim C2, amended: the session reset happens before the decode
attempt, so a decode failure returns the already-cleared session (boxes,
pending box, edges, predicates, counters, selection and mode flags all
cleared, loaded image dropped) together with an error; only the previous
display geometry and the vocabularies survive. -/
theorem claim_C2_amended_reset_precedes_decode (s : AState) (cw ch : Int) :
    openImage s none cw ch = (clearedForOpen s, true) ∧
    (clearedForOpen s).confirmedBboxes = [] ∧
    (clearedForOpen s).pendingBbox = none ∧
    (clearedForOpen s).relationships = [] ∧
    (clearedForOpen s).predicates = [] ∧
    (clearedForOpen s).labelCounts = [] ∧
    (clearedForOpen s).selectedBbox = none ∧
    (clearedForOpen s).createBBoxActive = false ∧
    (clearedForOpen s).attributeAddMode = false ∧
    (clearedForOpen s).relationshipMode = false ∧
    (clearedForOpen s).changeLabelMode = false ∧
    (clearedForOpen s).loadedImage = none ∧
    (clearedForOpen s).imageArea = s.imageArea ∧
    (clearedForOpen s).labelsMapping = s.labelsMapping ∧
    (clearedForOpen s).attributesMapping = s.attributesMapping ∧
    (clearedForOpen s).relationshipsMapping = s.relationshipsMapping :=
  ⟨rfl, rfl, rfl, rfl, rfl, rfl, rfl, rfl, rfl, rfl, rfl, rfl, rfl, rfl, rfl, rfl⟩

/-! ### Claim C3 -/

/-- Claim C3, counterexample: in relationship mode with a predicate
chosen, a click at `(50, 50)` resolves (by the target hit-test) to the
source box itself, yet the click is silently swallowed by the
`clicked == selected` early return: no warning is produced and the state
is unchanged — the claim's promised user-visible warning never appears. -/
theorem claim_C3_counterexample :
    smallestContaining sC3.confirmedBboxes 50 50 = some boxBig ∧
    sC3.sourceBbox = some boxBig.key ∧
    sC3.relationshipMode = true ∧
    sC3.pendingRelationship ≠ "" ∧
    onCanvasClick sC3 50 50 true = (sC3, none) := by
  refine ⟨by decide, by decide, by decide, by decide, by decide⟩

/-- Claim C3, amended: in relationship-assignment mode with a predicate
already chosen, a canvas click whose resolved target box equals the
source box is silently ignored — the `clicked == selected` early return
fires before the target handling, so no warning is produced and the
state (hence the awaiting-target sub-state) is left unchanged. -/
theorem claim_C3_amended_same_target_silently_ignored
    (s : AState) (x y : Int) (c : Bool) (b : Box) (k : Nat)
    (hmode : s.relationshipMode = true)
    (hcreate : s.createBBoxActive = false)
    (hsel : s.selectedBbox = some k)
    (_hsrc : s.sourceBbox = some k)
    (hfind : findBox s k = some b)
    (_hpend : s.pendingRelationship ≠ "")
    (htgt : smallestContaining s.confirmedBboxes x y = some b) :
    onCanvasClick s x y c = (s, none) := by
  have hb : containsPt b x y = true := smallestContaining_contains htgt
  have hkey : b.key = k := findBox_key hfind
  have hclicked : getConfirmedBboxAt s x y = some b := by
    simp [getConfirmedBboxAt, hsel, hfind, hb]
  simp [onCanvasClick, hcreate, hmode, hclicked, hsel, hkey]

/-- Witness for the amended claim C3 at the concrete state `sC3`. -/
theorem claim_C3_amended_witness :
    onCanvasClick sC3 50 50 true = (sC3, none) :=
  claim_C3_amended_same_target_silently_ignored sC3 50 50 true boxBig 1
    (by decide) (by decide) (by decide) (by decide) (by decide) (by decide) (by decide)

/-! ### Claim C9 -/

/-- Claim C9: with no selection the canvas hit-test returns a confirmed
box of smallest area among those containing the point (and returns some
box whenever any confirmed box contains it); with a selection it tests
only the selected box and returns nothing for a click outside it. -/
theorem claim_C9_point_hit_test (s : AState) (x y : Int) :
    (s.selectedBbox = none →
      (∀ b, getConfirmedBboxAt s x y = some b →
        b ∈ s.confirmedBboxes ∧ containsPt b x y = true ∧
        ∀ c ∈ s.confirmedBboxes, containsPt c x y = true → area b ≤ area c) ∧
      (∀ c ∈ s.confirmedBboxes, containsPt c x y = true →
        (getConfirmedBboxAt s x y).isSome)) ∧
    (∀ k b, s.selectedBbox = some k → findBox s k = some b →
      getConfirmedBboxAt s x y = (if containsPt b x y then some b else none)) := by
  constructor
  · intro hnone
    have hdef : getConfirmedBboxAt s x y = smallestContaining s.confirmedBboxes x y := by
      simp [getConfirmedBboxAt, hnone]
    constructor
    · intro b hb
      rw [hdef] at hb
      exact ⟨smallestContaining_mem hb, smallestContaining_contains hb,
             smallestContaining_min hb⟩
    · intro c hc hcont
      rw [hdef]
      exact smallestContaining_isSome hc hcont
  · intro k b hk hb
    simp [getConfirmedBboxAt, hk, hb]

/-- Two nested boxes around the probe point, nothing selected: the
inner (smaller) box must satisfy the smallest-area conclusion; with the
outer box selected the hit-test only answers for that box. -/
def sC9 : AState :=
  { initState with
    confirmedBboxes :=
      [{ boxBig with selected := false },
       { key := 4, x1 := 0, y1 := 0, x2 := 50, y2 := 50, label := 2, id := 1,
         labelStr := "hat", selected := false, attributes := [] }],
    labelCounts := [("person", 1), ("hat", 1)] }

/-- Witness for claim C9 at the concrete state `sC9`. -/
theorem claim_C9_witness :
    ((getConfirmedBboxAt sC9 10 10).isSome ∧
      ∀ b, getConfirmedBboxAt sC9 10 10 = some b →
        b ∈ sC9.confirmedBboxes ∧ containsPt b 10 10 = true ∧
        ∀ c ∈ sC9.confirmedBboxes, containsPt c 10 10 = true → area b ≤ area c) ∧
    getConfirmedBboxAt { sC9 with selectedBbox := some 1 } 200 200 =
      (if containsPt { boxBig with selected := false } 200 200
       then some { boxBig with selected := false } else none) := by
  refine ⟨⟨?_, ?_⟩, ?_⟩
  · exact ((claim_C9_point_hit_test sC9 10 10).1 (by decide)).2
      { boxBig with selected := false } (by decide) (by decide)
  · exact ((claim_C9_point_hit_test sC9 10 10).1 (by decide)).1
  · exact (claim_C9_point_hit_test { sC9 with selectedBbox := some 1 } 200 200).2
      1 { boxBig with selected := false } (by decide) (by decide)

/-! ### Claim C5 -/

lemma deselectBbox_rel_fields (s : AState) (k : Nat) :
    (deselectBbox s k).relationships = s.relationships ∧
    (deselectBbox s k).predicates = s.predicates ∧
    (deselectBbox s k).relationshipMode = s.relationshipMode := by
  unfold deselectBbox clearSelectedFlag
  split <;> exact ⟨rfl, rfl, rfl⟩

lemma selectBbox_rel_fields (s : AState) (k : Nat) :
    (selectBbox s k).relationships = s.relationships ∧
    (selectBbox s k).predicates = s.predicates ∧
    (selectBbox s k).relationshipMode = s.relationshipMode := by
  unfold selectBbox markSelected
  split
  · exact ⟨rfl, rfl, rfl⟩
  · split
    · split
      · rename_i k0 _ _
        exact ⟨(deselectBbox_rel_fields s k0).1, (deselectBbox_rel_fields s k0).2.1,
               (deselectBbox_rel_fields s k0).2.2⟩
      · exact ⟨rfl, rfl, rfl⟩
    · exact ⟨rfl, rfl, rfl⟩

lemma toggleClick_rel_fields (s : AState) (x y : Int) :
    (toggleClick s x y).relationships = s.relationships ∧
    (toggleClick s x y).predicates = s.predicates ∧
    (toggleClick s x y).relationshipMode = s.relationshipMode := by
  unfold toggleClick
  split
  · split
    · exact selectBbox_rel_fields s _
    · split
      · exact deselectBbox_rel_fields s _
      · exact ⟨rfl, rfl, rfl⟩
  · exact ⟨rfl, rfl, rfl⟩

lemma relTargetClick_len (s1 : AState) (x y : Int) (c : Bool)
    (h : s1.relationships.length = s1.predicates.length) :
    (relTargetClick s1 x y c).1.relationships.length =
      (relTargetClick s1 x y c).1.predicates.length := by
  unfold relTargetClick
  split
  · exact h
  · cases smallestContaining s1.confirmedBboxes x y with
    | none => exact h
    | some target =>
      dsimp only
      split
      · exact h
      · split
        · exact h
        · split
          · simp [h]
          · exact h

lemma getD_mem_of_lt : ∀ (l : List Nat) (i : Nat), i < l.length → l.getD i 0 ∈ l := by
  intro l
  induction l with
  | nil =>
    intro i h
    simp at h
  | cons hd tl ih =>
    intro i h
    cases i with
    | zero =>
      rw [List.getD_cons_zero]
      exact List.mem_cons_self hd tl
    | succ n =>
      rw [List.getD_cons_succ]
      exact List.mem_cons_of_mem hd (ih n (by simpa using h))

lemma displayedIndices_lt (s : AState) :
    ∀ i ∈ displayedIndices s, i < s.relationships.length := by
  intro i hi
  have := List.mem_filter.mp hi
  exact List.mem_range.mp this.1

lemma length_eraseIdx_of_lt {α : Type} (l : List α) (i : Nat) (h : i < l.length) :
    (l.eraseIdx i).length = l.length - 1 := by
  rw [List.length_eraseIdx]
  simp [h]

/-- Claim C5: every operation that adds or removes a relationship edge
(the relationship-target click, removing an edge by display index,
removing a box with its edges) keeps the relationship list and the
predicate list the same length. -/
theorem claim_C5_edge_predicate_lengths (s : AState)
    (h : s.relationships.length = s.predicates.length) :
    (∀ x y c, (onCanvasClick s x y c).1.relationships.length =
              (onCanvasClick s x y c).1.predicates.length) ∧
    (∀ idx ans, (removeRelationship s idx ans).relationships.length =
                (removeRelationship s idx ans).predicates.length) ∧
    (∀ ans, (removeBbox s ans).relationships.length =
            (removeBbox s ans).predicates.length) := by
  refine ⟨?_, ?_, ?_⟩
  · intro x y c
    unfold onCanvasClick
    split
    · split
      · exact h
      · exact h
    · split
      · exact h
      · have ht := toggleClick_rel_fields s x y
        have hlen : (toggleClick s x y).relationships.length =
            (toggleClick s x y).predicates.length := by rw [ht.1, ht.2.1]; exact h
        split
        · exact relTargetClick_len (toggleClick s x y) x y c hlen
        · exact hlen
  · intro idx ans
    unfold removeRelationship
    split
    · split
      · rename_i hidx
        have hmem : (displayedIndices s).getD idx 0 ∈ displayedIndices s :=
          getD_mem_of_lt (displayedIndices s) idx hidx
        have hlt : (displayedIndices s).getD idx 0 < s.relationships.length :=
          displayedIndices_lt s _ hmem
        have hltp : (displayedIndices s).getD idx 0 < s.predicates.length := by omega
        have hemp : s.predicates.isEmpty = false := by
          cases hp : s.predicates with
          | nil => rw [hp] at hltp; simp at hltp
          | cons a tl => rfl
        have e1 := length_eraseIdx_of_lt s.relationships _ hlt
        have e2 := length_eraseIdx_of_lt s.predicates _ hltp
        have hif : (if s.predicates.isEmpty = true then s.predicates
                    else s.predicates.eraseIdx ((displayedIndices s).getD idx 0)) =
                   s.predicates.eraseIdx ((displayedIndices s).getD idx 0) := by
          rw [hemp]
          simp
        rw [hif, e1, e2]
        omega
      · exact h
    · exact h
  · intro ans
    unfold removeBbox
    cases s.selectedBbox with
    | none => exact h
    | some k =>
      dsimp only
      split
      · simp
      · exact h

/-- State used by the claim C5 witness: one edge, one predicate. -/
def sW5 : AState :=
  { initState with
    confirmedBboxes := [boxBig, boxSmall],
    relationships := [(1, "left of", 2)],
    predicates := [4],
    selectedBbox := some 1,
    relationshipsMapping := [("left of", 4)],
    labelCounts := [("person", 1), ("dog", 1)] }

/-- Witness for claim C5: removing the selected box of `sW5` keeps the
two lists equally long. -/
theorem claim_C5_witness :
    (removeBbox sW5 true).relationships.length =
      (removeBbox sW5 true).predicates.length :=
  (claim_C5_edge_predicate_lengths sW5 (by decide)).2.2 true

/-! ### Claim C6 -/

/-- Relationship mode with the duplicate edge already present; the
click at `(230, 30)` lands inside `boxSmall` only. -/
def sC6 : AState :=
  { initState with
    confirmedBboxes := [boxBig, boxSmall],
    selectedBbox := some 1,
    relationshipMode := true,
    sourceBbox := some 1,
    pendingRelationship := "left of",
    relationships := [(1, "left of", 2)],
    predicates := [4],
    relationshipsMapping := [("left of", 4)],
    labelCounts := [("person", 1), ("dog", 1)] }

/-- A target box partially overlapping the source `boxBig`
(`(0,0)-(100,100)`): the sliver `x ∈ (100, 140]` lies outside the
source, so the edge to it is creatable by a click there. -/
def boxOverlap : Box :=
  { key := 2, x1 := 60, y1 := 40, x2 := 140, y2 := 80, label := 2, id := 1,
    labelStr := "dog", selected := false, attributes := [] }

/-- `sC6` with `boxOverlap` as the target: the duplicate edge exists
and the re-attempt click at `(80, 60)` lands inside both boxes. -/
def sC6b : AState :=
  { initState with
    confirmedBboxes := [boxBig, boxOverlap],
    selectedBbox := some 1,
    relationshipMode := true,
    sourceBbox := some 1,
    pendingRelationship := "left of",
    relationships := [(1, "left of", 2)],
    predicates := [4],
    relationshipsMapping := [("left of", 4)],
    labelCounts := [("person", 1), ("dog", 1)] }

/-- Claim C6, counterexample: the duplicate triple (source, "left of",
target) already exists, and the click at `(80, 60)` resolves — by the
target rule, smallest containing box — to the valid target
`boxOverlap` (key 2, distinct from the source).  Yet the click is
silently swallowed by the `clicked == selected` early return because it
also lies inside the source box: no duplicate warning is raised and the
state is unchanged, so the gesture is not aborted and the session does
not return to the selected state. -/
theorem claim_C6_counterexample :
    smallestContaining sC6b.confirmedBboxes 80 60 = some boxOverlap ∧
    boxOverlap.key ≠ 1 ∧
    sC6b.sourceBbox = some 1 ∧
    sC6b.relationshipMode = true ∧
    sC6b.pendingRelationship ≠ "" ∧
    (1, sC6b.pendingRelationship, boxOverlap.key) ∈ sC6b.relationships ∧
    onCanvasClick sC6b 80 60 true = (sC6b, none) := by
  refine ⟨by decide, by decide, by decide, by decide, by decide, by decide, by decide⟩

/-- Claim C6, amended: in relationship mode, a target click resolving
to a valid target whose (source, predicate, target) triple already
exists aborts the whole gesture with a duplicate warning — the mode
flags are reset while the edge list and the selection are untouched —
but only when the click lands outside the source box's rectangle.  A
duplicate re-attempt whose click lands inside the source rectangle
(possible when the boxes overlap) is silently ignored: no warning, the
state is unchanged, and the gesture stays awaiting its target. -/
theorem claim_C6_duplicate_triple_aborts_gesture
    (s : AState) (x y : Int) (c : Bool) (kS : Nat) (bS target : Box)
    (hmode : s.relationshipMode = true)
    (hcreate : s.createBBoxActive = false)
    (hsel : s.selectedBbox = some kS)
    (hsrc : s.sourceBbox = some kS)
    (hfindS : findBox s kS = some bS)
    (hpend : s.pendingRelationship ≠ "")
    (htgt : smallestContaining s.confirmedBboxes x y = some target)
    (hneq : target.key ≠ kS)
    (hdup : (kS, s.pendingRelationship, target.key) ∈ s.relationships) :
    (containsPt bS x y = false →
      onCanvasClick s x y c =
        ({ s with relationshipMode := false, sourceBbox := none,
                  pendingRelationship := "" }, some Warn.duplicateRel) ∧
      (onCanvasClick s x y c).1.relationships = s.relationships ∧
      (onCanvasClick s x y c).1.relationships.length = s.relationships.length ∧
      (onCanvasClick s x y c).1.selectedBbox = some kS) ∧
    (containsPt bS x y = true →
      onCanvasClick s x y c = (s, none)) := by
  constructor
  · intro houtside
    have hclicked : getConfirmedBboxAt s x y = none := by
      simp [getConfirmedBboxAt, hsel, hfindS, houtside]
    have htog : toggleClick s x y = s := by
      simp [toggleClick, hclicked]
    have hany : s.relationships.any (fun r =>
        decide (some r.1 = s.sourceBbox) && decide (r.2.1 = s.pendingRelationship)
        && decide (r.2.2 = target.key)) = true := by
      rw [List.any_eq_true]
      refine ⟨(kS, s.pendingRelationship, target.key), hdup, ?_⟩
      simp [hsrc]
    have hsome : some target.key ≠ s.sourceBbox := by
      rw [hsrc]
      intro hcontra
      exact hneq (Option.some.inj hcontra)
    have hrel : relTargetClick s x y c =
        ({ s with relationshipMode := false, sourceBbox := none,
                  pendingRelationship := "" }, some Warn.duplicateRel) := by
      unfold relTargetClick
      rw [if_neg hpend, htgt]
      dsimp only
      rw [if_neg hsome, if_pos hany]
    have hmain : onCanvasClick s x y c =
        ({ s with relationshipMode := false, sourceBbox := none,
                  pendingRelationship := "" }, some Warn.duplicateRel) := by
      unfold onCanvasClick
      rw [if_neg (by rw [hcreate]; exact Bool.false_ne_true)]
      rw [if_neg (by rw [hclicked, hsel]; simp)]
      rw [htog, hmode]
      rw [if_pos rfl]
      exact hrel
    refine ⟨hmain, ?_, ?_, ?_⟩ <;> rw [hmain]
    exact hsel
  · intro hin
    have hkey : bS.key = kS := findBox_key hfindS
    have hclicked : getConfirmedBboxAt s x y = some bS := by
      simp [getConfirmedBboxAt, hsel, hfindS, hin]
    simp [onCanvasClick, hcreate, hmode, hclicked, hsel, hkey]

/-- Witness for the amended claim C6: at `sC6` the duplicate click
outside the source aborts the gesture with the duplicate warning; at
`sC6b` the duplicate click inside the source is silently ignored. -/
theorem claim_C6_witness :
    (onCanvasClick sC6 230 30 true =
      ({ sC6 with relationshipMode := false, sourceBbox := none,
                  pendingRelationship := "" }, some Warn.duplicateRel) ∧
     (onCanvasClick sC6 230 30 true).1.relationships = sC6.relationships ∧
     (onCanvasClick sC6 230 30 true).1.relationships.length =
       sC6.relationships.length ∧
     (onCanvasClick sC6 230 30 true).1.selectedBbox = some 1) ∧
    onCanvasClick sC6b 80 60 true = (sC6b, none) := by
  constructor
  · exact (claim_C6_duplicate_triple_aborts_gesture sC6 230 30 true 1 boxBig boxSmall
      (by decide) (by decide) (by decide) (by decide) (by decide) (by decide)
      (by decide) (by decide) (by decide)).1 (by decide)
  · exact (claim_C6_duplicate_triple_aborts_gesture sC6b 80 60 true 1 boxBig boxOverlap
      (by decide) (by decide) (by decide) (by decide) (by decide) (by decide)
      (by decide) (by decide) (by decide)).2 (by decide)

/-! ### Claim C7 -/

lemma find?_updateBox : ∀ (l : List Box) (k : Nat) (f : Box → Box) (b : Box),
    (∀ a, (f a).key = a.key) →
    l.find? (fun a => decide (a.key = k)) = some b →
    (updateBox l k f).find? (fun a => decide (a.key = k)) = some (f b) := by
  intro l
  induction l with
  | nil =>
    intro k f b _ h
    exact absurd h (by simp)
  | cons hd tl ih =>
    intro k f b hf h
    by_cases hk : hd.key = k
    · rw [List.find?_cons_of_pos _ (by simp [hk])] at h
      injection h with h
      subst h
      show ((if hd.key = k then f hd else hd) :: updateBox tl k f).find? _ = some (f hd)
      rw [if_pos hk]
      exact List.find?_cons_of_pos _ (by simp [hf, hk])
    · rw [List.find?_cons_of_neg _ (by simp [hk])] at h
      show ((if hd.key = k then f hd else hd) :: updateBox tl k f).find? _ = some (f b)
      rw [if_neg hk]
      rw [List.find?_cons_of_neg _ (by simp [hk])]
      exact ih k f b hf h

/-- Claim C7: in change-label mode, picking the current label is
rejected with a warning and the state (hence the box's id) is
unchanged; picking a different label assigns a fresh instance id equal
to that label's counter plus one (1 for a never-used label), updates
the box's numeric label, id and display string in place, leaves the
edge list untouched, and every edge rendered with this box as source
thereafter shows the new `label:id` string. -/
theorem claim_C7_change_label
    (s : AState) (k : Nat) (b : Box) (newLabel : String) (ans : Bool)
    (s' : AState) (newId : Nat)
    (hmode : s.changeLabelMode = true)
    (hcb : s.changeBbox = some k)
    (hold : s.changeOldLabel = some b.labelStr)
    (hfind : findBox s k = some b)
    (hs' : s' = (onLabelSelect s newLabel true).1)
    (hid : newId = dictGet s.labelCounts newLabel + 1) :
    (onLabelSelect s b.labelStr ans = (s, some Warn.changeSameLabel)) ∧
    (newLabel ≠ b.labelStr →
      findBox s' k = some { b with label := dictGet s.labelsMapping newLabel,
                                   id := newId, labelStr := newLabel } ∧
      boxStr s' k = newLabel ++ ":" ++ toString newId ∧
      s'.changeLabelMode = false ∧
      s'.relationships = s.relationships ∧
      (∀ r ∈ s'.relationships, r.1 = k →
        renderEdge s' r = (newLabel ++ ":" ++ toString newId) ++ " --- " ++ r.2.1
          ++ " --- " ++ boxStr s' r.2.2)) := by
  constructor
  · unfold onLabelSelect
    rw [if_pos hmode, if_pos (by rw [hold])]
  · intro hne
    have hsE : s' = { s with
        labelCounts := dictSet s.labelCounts newLabel (dictGet s.labelCounts newLabel + 1),
        confirmedBboxes := updateBox s.confirmedBboxes k (fun bb =>
          { bb with label := dictGet s.labelsMapping newLabel,
                    id := dictGet s.labelCounts newLabel + 1, labelStr := newLabel }),
        changeLabelMode := false, changeBbox := none, changeOldLabel := none } := by
      rw [hs']
      unfold onLabelSelect
      rw [if_pos hmode,
          if_neg (by rw [hold]; intro hcon; exact hne (Option.some.inj hcon)),
          if_pos rfl, hcb]
    have hfind' : findBox s' k =
        some { b with label := dictGet s.labelsMapping newLabel,
                      id := newId, labelStr := newLabel } := by
      rw [hsE, hid]
      unfold findBox at hfind ⊢
      exact find?_updateBox s.confirmedBboxes k _ b (fun a => rfl) hfind
    refine ⟨hfind', ?_, by rw [hsE], by rw [hsE], ?_⟩
    · unfold boxStr
      rw [hfind']
      rfl
    · intro r _ hrk
      unfold renderEdge
      rw [hrk]
      unfold boxStr
      rw [hfind']
      rfl

/-- Two boxes labelled "car" with ids 1 and 2; change-label mode is
active on the first, with an edge from it to the second. -/
def carBox1 : Box :=
  { key := 1, x1 := 0, y1 := 0, x2 := 50, y2 := 50, label := 1, id := 1,
    labelStr := "car", selected := true, attributes := [] }

def carBox2 : Box :=
  { key := 2, x1 := 60, y1 := 0, x2 := 120, y2 := 50, label := 1, id := 2,
    labelStr := "car", selected := false, attributes := [] }

def sC7 : AState :=
  { initState with
    confirmedBboxes := [carBox1, carBox2],
    labelCounts := [("car", 2)],
    selectedBbox := some 1,
    changeLabelMode := true,
    changeBbox := some 1,
    changeOldLabel := some "car",
    labelsMapping := [("car", 1), ("truck", 2)],
    relationships := [(1, "near", 2)],
    predicates := [1],
    relationshipsMapping := [("near", 1)] }

/-- Witness for claim C7: relabelling "car:1" to "car" is rejected;
relabelling it to "truck" yields instance id 1 (truck never used), so
every edge from it renders as "truck:1 --- ...". -/
theorem claim_C7_witness :
    (onLabelSelect sC7 "car" true = (sC7, some Warn.changeSameLabel)) ∧
    (findBox (onLabelSelect sC7 "truck" true).1 1 =
      some { carBox1 with label := dictGet sC7.labelsMapping "truck",
                          id := dictGet sC7.labelCounts "truck" + 1,
                          labelStr := "truck" } ∧
    boxStr (onLabelSelect sC7 "truck" true).1 1 =
      "truck" ++ ":" ++ toString (dictGet sC7.labelCounts "truck" + 1) ∧
    (onLabelSelect sC7 "truck" true).1.changeLabelMode = false ∧
    (onLabelSelect sC7 "truck" true).1.relationships = sC7.relationships ∧
    (∀ r ∈ (onLabelSelect sC7 "truck" true).1.relationships, r.1 = 1 →
      renderEdge (onLabelSelect sC7 "truck" true).1 r =
        ("truck" ++ ":" ++ toString (dictGet sC7.labelCounts "truck" + 1))
          ++ " --- " ++ r.2.1 ++ " --- "
          ++ boxStr (onLabelSelect sC7 "truck" true).1 r.2.2)) := by
  have h := claim_C7_change_label sC7 1 carBox1 "truck" true
    (onLabelSelect sC7 "truck" true).1 (dictGet sC7.labelCounts "truck" + 1)
    (by decide) (by decide) (by decide) (by decide) rfl rfl
  exact ⟨h.1, h.2 (by decide)⟩

/-! ### Claim C10 -/

lemma deselectBbox_confirmed (s : AState) (k : Nat) :
    (deselectBbox s k).confirmedBboxes =
      updateBox s.confirmedBboxes k (fun b => { b with selected := false }) := by
  unfold deselectBbox clearSelectedFlag
  split <;> rfl

/-- Claim C10: with no create/attribute/relationship mode active,
selecting the labeled-list entry of box B while a different box A is
selected deselects A and selects B in one step: afterwards B's key is
the selection, B's flag is set and A's flag is cleared. -/
theorem claim_C10_labeled_list_switches_selection
    (s : AState) (entry : String) (kA : Nat) (bB : Box)
    (hcreate : s.createBBoxActive = false)
    (hattr : s.attributeAddMode = false)
    (hrel : s.relationshipMode = false)
    (hsel : s.selectedBbox = some kA)
    (hfound : s.confirmedBboxes.find? (fun bb => decide (boxEntry bb = entry)) = some bB)
    (hne : bB.key ≠ kA) :
    (onLabeledSelect s entry).selectedBbox = some bB.key ∧
    (∀ b' ∈ (onLabeledSelect s entry).confirmedBboxes,
      b'.key = bB.key → b'.selected = true) ∧
    (∀ b' ∈ (onLabeledSelect s entry).confirmedBboxes,
      b'.key = kA → b'.selected = false) := by
  have hne' : ¬ (s.selectedBbox = some bB.key) := by
    rw [hsel]
    intro hcon
    exact hne (Option.some.inj hcon).symm
  have hd : deselectBbox s kA = { clearSelectedFlag s kA with selectedBbox := none } := by
    unfold deselectBbox
    rw [if_pos hsel]
  have hmark : selectBbox (deselectBbox s kA) bB.key =
      markSelected (deselectBbox s kA) bB.key := by
    unfold selectBbox
    rw [hd]
    show (if (s.createBBoxActive || s.attributeAddMode || s.relationshipMode) = true
          then _ else _) = _
    rw [hcreate, hattr, hrel, if_neg (by simp)]
  have hstate : onLabeledSelect s entry = markSelected (deselectBbox s kA) bB.key := by
    unfold onLabeledSelect
    rw [hcreate, hattr, hrel, hfound]
    dsimp only
    rw [if_neg (by simp), if_neg hne', hsel]
    exact hmark
  rw [hstate]
  refine ⟨rfl, ?_, ?_⟩
  · intro b' hb' hbk
    rcases List.mem_map.mp hb' with ⟨a, _, hae⟩
    by_cases hak : a.key = bB.key
    · rw [if_pos hak] at hae
      rw [← hae]
    · rw [if_neg hak] at hae
      rw [← hae] at hbk
      exact absurd hbk hak
  · intro b' hb' hbk
    have hb'' : b' ∈ updateBox (deselectBbox s kA).confirmedBboxes bB.key
        (fun b => { b with selected := true }) := hb'
    rcases List.mem_map.mp hb'' with ⟨a, ha, hae⟩
    by_cases hak : a.key = bB.key
    · rw [if_pos hak] at hae
      rw [← hae] at hbk
      exact absurd (hak ▸ hbk) hne
    · rw [if_neg hak] at hae
      subst hae
      rw [deselectBbox_confirmed] at ha
      rcases List.mem_map.mp ha with ⟨c, _, hce⟩
      by_cases hck : c.key = kA
      · rw [if_pos hck] at hce
        rw [← hce]
      · rw [if_neg hck] at hce
        subst hce
        exact absurd hbk hck

/-- Box A (`boxBig`) selected while the entry of box B (`boxSmall`) is
clicked in the labeled list. -/
def sC10 : AState :=
  { initState with
    confirmedBboxes := [boxBig, boxSmall],
    selectedBbox := some 1,
    labelCounts := [("person", 1), ("dog", 1)] }

/-- Witness for claim C10 at the concrete state `sC10`. -/
theorem claim_C10_witness :
    (onLabeledSelect sC10 "dog:1").selectedBbox = some boxSmall.key ∧
    (∀ b' ∈ (onLabeledSelect sC10 "dog:1").confirmedBboxes,
      b'.key = boxSmall.key → b'.selected = true) ∧
    (∀ b' ∈ (onLabeledSelect sC10 "dog:1").confirmedBboxes,
      b'.key = 1 → b'.selected = false) :=
  claim_C10_labeled_list_switches_selection sC10 "dog:1" 1 boxSmall
    (by decide) (by decide) (by decide) (by decide) (by decide) (by decide)

/-! ### Claim C8 -/

lemma find?_key_unique : ∀ (l : List Box) (k : Nat) (b0 : Box),
    (l.map Box.key).Nodup →
    l.find? (fun a => decide (a.key = k)) = some b0 →
    ∀ a ∈ l, a.key = k → a = b0 := by
  intro l
  induction l with
  | nil =>
    intro k b0 _ h
    exact absurd h (by simp)
  | cons hd tl ih =>
    intro k b0 hnd hf a ha hak
    rw [List.map_cons, List.nodup_cons] at hnd
    by_cases hk : hd.key = k
    · rw [List.find?_cons_of_pos _ (by simp [hk])] at hf
      injection hf with hf
      rcases List.mem_cons.mp ha with h1 | h1
      · rw [h1, hf]
      · exfalso
        apply hnd.1
        have hkey : hd.key = a.key := by rw [hak, hk]
        rw [hkey]
        exact List.mem_map_of_mem Box.key h1
    · rw [List.find?_cons_of_neg _ (by simp [hk])] at hf
      rcases List.mem_cons.mp ha with h1 | h1
      · exact absurd (h1 ▸ hak) hk
      · exact ih k b0 hnd.2 hf a h1 hak

lemma nodup_concat_of (l : List String) (a : String) (h : l.Nodup) (ha : a ∉ l) :
    (l ++ [a]).Nodup := by
  induction l with
  | nil => simp
  | cons hd tl ih =>
    rw [List.cons_append, List.nodup_cons]
    rw [List.nodup_cons] at h
    constructor
    · intro hmem
      rcases List.mem_append.mp hmem with h1 | h1
      · exact h.1 h1
      · have h2 : hd = a := by simpa using h1
        apply ha
        rw [← h2]
        exact List.mem_cons_self hd tl
    · exact ih h.2 (fun hx => ha (List.mem_cons_of_mem hd hx))

/-- The invariant of claim C8 over all confirmed boxes. -/
def attrInvariant (s : AState) : Prop :=
  ∀ b ∈ s.confirmedBboxes, b.attributes.Nodup ∧ b.attributes.length ≤ 10

lemma attrAppend_invariant (s : AState) (k : Nat) (attrName : String) (b : Box)
    (hkeys : (s.confirmedBboxes.map Box.key).Nodup)
    (hfind : findBox s k = some b)
    (hdup : attrName ∉ b.attributes)
    (hcap : b.attributes.length < 10)
    (hinv : attrInvariant s) : attrInvariant (attrAppend s k attrName) := by
  intro b' hb'
  have hb'' : b' ∈ updateBox s.confirmedBboxes k
      (fun bb => { bb with attributes := bb.attributes ++ [attrName] }) := hb'
  rcases List.mem_map.mp hb'' with ⟨a, ha, hae⟩
  by_cases hak : a.key = k
  · have hab : a = b := find?_key_unique s.confirmedBboxes k b hkeys hfind a ha hak
    subst hab
    rw [if_pos hak] at hae
    subst hae
    refine ⟨?_, ?_⟩
    · exact nodup_concat_of a.attributes attrName (hinv a ha).1 hdup
    · simp only [List.length_append, List.length_singleton]
      omega
  · rw [if_neg hak] at hae
    subst hae
    exact hinv a ha

/-- Claim C8: the attribute-add handler preserves the no-duplicates /
at-most-10 invariant on every confirmed box (and box confirmation
establishes it with an empty list); a duplicate attribute is rejected
with a warning and no state change, and once the box holds 10
attributes the handler refuses to append and exits the mode. -/
theorem claim_C8_attribute_cap_and_nodup
    (s : AState) (attrName : String) (result : Option Bool) (addMore : Bool)
    (hkeys : (s.confirmedBboxes.map Box.key).Nodup)
    (hinv : attrInvariant s) :
    attrInvariant (onAttrDoubleClick s attrName result addMore).1 ∧
    (∀ lb ans, attrInvariant (confirmLabelAssignment s lb ans)) ∧
    (∀ k b, s.attributeAddMode = true → s.selectedBbox = some k →
      findBox s k = some b →
      (attrName ∈ b.attributes →
        onAttrDoubleClick s attrName result addMore = (s, some Warn.dupAttribute)) ∧
      (attrName ∉ b.attributes → 10 ≤ b.attributes.length →
        onAttrDoubleClick s attrName result addMore =
          ({ s with attributeAddMode := false }, some Warn.attrLimit))) := by
  refine ⟨?_, ?_, ?_⟩
  · by_cases hmode : s.attributeAddMode = true
    · cases hsel : s.selectedBbox with
      | none =>
        simp [onAttrDoubleClick, hmode, hsel]
        exact hinv
      | some k =>
        cases hfind : findBox s k with
        | none =>
          simp [onAttrDoubleClick, hmode, hsel, hfind]
          exact hinv
        | some b =>
          by_cases hdup : attrName ∈ b.attributes
          · simp [onAttrDoubleClick, hmode, hsel, hfind, hdup]
            exact hinv
          · by_cases hcap : b.attributes.length ≥ 10
            · simp [onAttrDoubleClick, hmode, hsel, hfind, hdup, hcap]
              exact hinv
            · cases result with
              | none =>
                simp [onAttrDoubleClick, hmode, hsel, hfind, hdup, hcap]
                exact hinv
              | some tf =>
                cases tf with
                | false =>
                  simp [onAttrDoubleClick, hmode, hsel, hfind, hdup, hcap]
                  exact hinv
                | true =>
                  have happ := attrAppend_invariant s k attrName b hkeys hfind hdup
                    (by omega) hinv
                  cases addMore with
                  | true =>
                    simp [onAttrDoubleClick, hmode, hsel, hfind, hdup, hcap]
                    exact happ
                  | false =>
                    simp [onAttrDoubleClick, hmode, hsel, hfind, hdup, hcap]
                    intro b' hb'
                    exact happ b' hb'
    · simp [onAttrDoubleClick, hmode]
      exact hinv
  · intro lb ans
    unfold confirmLabelAssignment
    split
    · split
      · exact hinv
      · intro b' hb'
        rcases List.mem_append.mp hb' with h1 | h1
        · exact hinv b' h1
        · rw [List.mem_singleton] at h1
          subst h1
          exact ⟨List.nodup_nil, by simp⟩
    · exact hinv
  · intro k b hmode hsel hfind
    constructor
    · intro hdup
      simp [onAttrDoubleClick, hmode, hsel, hfind, hdup]
    · intro hdup hcap
      simp [onAttrDoubleClick, hmode, hsel, hfind, hdup, hcap]

/-- Attribute mode active on a box that already holds "red". -/
def sC8 : AState :=
  { initState with
    confirmedBboxes := [{ boxBig with attributes := ["red"] }],
    selectedBbox := some 1,
    attributeAddMode := true,
    attributesMapping := [("red", 1), ("tall", 2)],
    labelCounts := [("person", 1)] }

/-- Witness for claim C8: re-adding "red" is rejected with a duplicate
warning and no state change; adding "tall" keeps the invariant. -/
theorem claim_C8_witness :
    onAttrDoubleClick sC8 "red" (some true) true = (sC8, some Warn.dupAttribute) ∧
    attrInvariant (onAttrDoubleClick sC8 "tall" (some true) true).1 := by
  constructor
  · exact ((claim_C8_attribute_cap_and_nodup sC8 "red" (some true) true (by decide)
      (by unfold attrInvariant; decide)).2.2 1 { boxBig with attributes := ["red"] }
      (by decide) (by decide) (by decide)).1 (by decide)
  · exact (claim_C8_attribute_cap_and_nodup sC8 "tall" (some true) true (by decide)
      (by unfold attrInvariant; decide)).1

/-! ### Claim C4 -/

/-- Per-label instance counter as the handlers read it
(`label_counts.get(label, 0)`). -/
def countL (s : AState) (L : String) : Nat :=
  dictGet s.labelCounts L

/-- The session operations relevant to claim C4, each delegating to the
real embedded handler: confirming a label on a freshly drawn pending
box, removing the (selected) box with identity `key`, and running the
change-label gesture on the existing box with identity `key`. -/
inductive Op where
  | confirmOp (label : String)
  | removeOp (key : Nat)
  | changeOp (key : Nat) (newLabel : String)

def runOp (s : AState) (op : Op) : AState :=
  match op with
  | .confirmOp label =>
    confirmLabelAssignment { s with pendingBbox := some (0, 0, 20, 20) } label true
  | .removeOp k => removeBbox { s with selectedBbox := some k } true
  | .changeOp k newLabel =>
    match findBox s k with
    | some b =>
      (onLabelSelect { s with changeLabelMode := true, changeBbox := some k,
                              changeOldLabel := some b.labelStr } newLabel true).1
    | none => s

/-- The instance id an operation assigns under label `L`, observed from
the run itself: a confirmation appends its box (read off the end of the
confirmed list); an applied label change rewrites the box in place
(read back through its key); removals assign nothing. -/
def opAssignedId (L : String) (s : AState) (op : Op) : Option Nat :=
  match op with
  | .confirmOp label =>
    if label = L then Option.map Box.id (runOp s op).confirmedBboxes.getLast? else none
  | .removeOp _ => none
  | .changeOp k newLabel =>
    if newLabel = L then
      match findBox s k with
      | some b =>
        if b.labelStr = newLabel then none
        else Option.map Box.id (findBox (runOp s op) k)
      | none => none
    else none

/-- All ids assigned under label `L` along a trace of operations. -/
def assignedIds (L : String) : AState → List Op → List Nat
  | _, [] => []
  | s, op :: ops => (opAssignedId L s op).toList ++ assignedIds L (runOp s op) ops

/-- `consecFrom a n = [a, a+1, ..., a+n-1]`. -/
def consecFrom : Nat → Nat → List Nat
  | _, 0 => []
  | a, n + 1 => a :: consecFrom (a + 1) n

lemma consecFrom_succ (a n : Nat) :
    consecFrom a (n + 1) = a :: consecFrom (a + 1) n := rfl

lemma mem_consecFrom : ∀ (n a x : Nat), x ∈ consecFrom a n → a ≤ x := by
  intro n
  induction n with
  | zero =>
    intro a x hx
    cases hx
  | succ m ih =>
    intro a x hx
    rcases List.mem_cons.mp hx with h1 | h1
    · omega
    · have := ih (a + 1) x h1
      omega

lemma consecFrom_nodup : ∀ (n a : Nat), (consecFrom a n).Nodup := by
  intro n
  induction n with
  | zero =>
    intro a
    exact List.nodup_nil
  | succ m ih =>
    intro a
    rw [consecFrom_succ, List.nodup_cons]
    constructor
    · intro hmem
      have := mem_consecFrom m (a + 1) a hmem
      omega
    · exact ih (a + 1)

lemma dictGet_dictSet_self : ∀ (m : List (String × Nat)) (k : String) (v : Nat),
    dictGet (dictSet m k v) k = v := by
  intro m
  induction m with
  | nil =>
    intro k v
    simp [dictSet, dictGet]
  | cons hd tl ih =>
    obtain ⟨q, w⟩ := hd
    intro k v
    by_cases hk : q = k
    · simp [dictSet, dictGet, hk]
    · simp [dictSet, dictGet, hk]
      exact ih k v

lemma dictGet_dictSet_ne : ∀ (m : List (String × Nat)) (k q : String) (v : Nat),
    q ≠ k → dictGet (dictSet m k v) q = dictGet m q := by
  intro m
  induction m with
  | nil =>
    intro k q v hq
    simp [dictSet, dictGet, Ne.symm hq]
  | cons hd tl ih =>
    obtain ⟨p, w⟩ := hd
    intro k q v hq
    by_cases hk : p = k
    · subst hk
      simp [dictSet, dictGet, Ne.symm hq]
    · by_cases hq' : p = q
      · simp [dictSet, dictGet, hk, hq', hq]
      · simp [dictSet, dictGet, hk, hq']
        exact ih k q v hq

lemma runOp_spec (L : String) (s : AState) (op : Op) :
    (opAssignedId L s op = none ∧ countL (runOp s op) L = countL s L) ∨
    (opAssignedId L s op = some (countL s L + 1) ∧
      countL (runOp s op) L = countL s L + 1) := by
  cases op with
  | confirmOp label =>
    have hlast : (runOp s (.confirmOp label)).confirmedBboxes.getLast? =
        some { key := s.nextKey, x1 := 0, y1 := 0, x2 := 20, y2 := 20,
               label := dictGet s.labelsMapping label,
               id := dictGet s.labelCounts label + 1,
               labelStr := label, selected := false, attributes := [] } := by
      show (s.confirmedBboxes ++ [_]).getLast? = _
      exact List.getLast?_concat _
    by_cases hL : label = L
    · subst hL
      right
      constructor
      · unfold opAssignedId
        dsimp only
        rw [if_pos rfl, hlast]
        rfl
      · show dictGet (dictSet s.labelCounts label (dictGet s.labelCounts label + 1))
            label = dictGet s.labelCounts label + 1
        exact dictGet_dictSet_self s.labelCounts label _
    · left
      constructor
      · unfold opAssignedId
        dsimp only
        rw [if_neg hL]
      · show dictGet (dictSet s.labelCounts label (dictGet s.labelCounts label + 1))
            L = dictGet s.labelCounts L
        exact dictGet_dictSet_ne s.labelCounts label L _ (fun h => hL h.symm)
  | removeOp k =>
    exact Or.inl ⟨rfl, rfl⟩
  | changeOp k newLabel =>
    cases hfind : findBox s k with
    | none =>
      left
      constructor
      · unfold opAssignedId
        dsimp only
        by_cases hL : newLabel = L
        · rw [if_pos hL, hfind]
        · rw [if_neg hL]
      · unfold runOp
        dsimp only
        rw [hfind]
    | some b =>
      by_cases hsame : b.labelStr = newLabel
      · have hrun : runOp s (.changeOp k newLabel) =
            { s with changeLabelMode := true, changeBbox := some k,
                     changeOldLabel := some b.labelStr } := by
          simp [runOp, hfind, onLabelSelect, hsame]
        left
        constructor
        · unfold opAssignedId
          dsimp only
          by_cases hL : newLabel = L
          · rw [if_pos hL, hfind]
            dsimp only
            rw [if_pos hsame]
          · rw [if_neg hL]
        · rw [hrun]
          rfl
      · have hrun : runOp s (.changeOp k newLabel) = { s with
            labelCounts := dictSet s.labelCounts newLabel
              (dictGet s.labelCounts newLabel + 1),
            confirmedBboxes := updateBox s.confirmedBboxes k (fun bb =>
              { bb with label := dictGet s.labelsMapping newLabel,
                        id := dictGet s.labelCounts newLabel + 1,
                        labelStr := newLabel }),
            changeLabelMode := false, changeBbox := none,
            changeOldLabel := none } := by
          simp [runOp, hfind, onLabelSelect, hsame, Ne.symm hsame]
        by_cases hL : newLabel = L
        · subst hL
          right
          constructor
          · unfold opAssignedId
            dsimp only
            rw [if_pos rfl, hfind]
            dsimp only
            rw [if_neg hsame]
            have hfind' : findBox (runOp s (.changeOp k newLabel)) k =
                some { b with label := dictGet s.labelsMapping newLabel,
                              id := dictGet s.labelCounts newLabel + 1,
                              labelStr := newLabel } := by
              rw [hrun]
              unfold findBox at hfind ⊢
              exact find?_updateBox s.confirmedBboxes k _ b (fun a => rfl) hfind
            rw [hfind']
            rfl
          · rw [hrun]
            show dictGet (dictSet s.labelCounts newLabel
                (dictGet s.labelCounts newLabel + 1)) newLabel =
              dictGet s.labelCounts newLabel + 1
            exact dictGet_dictSet_self s.labelCounts newLabel _
        · left
          constructor
          · unfold opAssignedId
            dsimp only
            rw [if_neg hL]
          · rw [hrun]
            show dictGet (dictSet s.labelCounts newLabel
                (dictGet s.labelCounts newLabel + 1)) L = dictGet s.labelCounts L
            exact dictGet_dictSet_ne s.labelCounts newLabel L _ (fun h => hL h.symm)

lemma assignedIds_consecutive (L : String) :
    ∀ (ops : List Op) (s : AState),
      assignedIds L s ops =
        consecFrom (countL s L + 1) (assignedIds L s ops).length := by
  intro ops
  induction ops with
  | nil =>
    intro s
    rfl
  | cons op ops ih =>
    intro s
    have hunfold : assignedIds L s (op :: ops) =
        (opAssignedId L s op).toList ++ assignedIds L (runOp s op) ops := rfl
    rcases runOp_spec L s op with ⟨h1, h2⟩ | ⟨h1, h2⟩
    · rw [hunfold, h1]
      show assignedIds L (runOp s op) ops =
        consecFrom (countL s L + 1) (assignedIds L (runOp s op) ops).length
      rw [← h2]
      exact ih (runOp s op)
    · rw [hunfold, h1]
      have ih' := ih (runOp s op)
      rw [h2] at ih'
      show (countL s L + 1) :: assignedIds L (runOp s op) ops =
        (countL s L + 1) :: consecFrom (countL s L + 1 + 1)
          (assignedIds L (runOp s op) ops).length
      exact congrArg _ ih'

/-- Claim C4: along any trace of confirmations, removals and label
changes, the ids assigned under a fixed label `L` form the consecutive
run `counter+1, counter+2, ...` — strictly increasing by one and never
reused (the list is duplicate-free) — and loading a new image resets
every per-label counter. -/
theorem claim_C4_instance_ids_never_reused (L : String) (ops : List Op) (s : AState) :
    assignedIds L s ops =
      consecFrom (countL s L + 1) (assignedIds L s ops).length ∧
    (assignedIds L s ops).Nodup ∧
    (∀ (d : Option (Nat × Nat)) (cw ch : Int),
      (openImage s d cw ch).1.labelCounts = []) := by
  refine ⟨assignedIds_consecutive L ops s, ?_, ?_⟩
  · rw [assignedIds_consecutive L ops s]
    exact consecFrom_nodup _ _
  · intro d cw ch
    cases d with
    | none => rfl
    | some wh =>
      obtain ⟨w, h⟩ := wh
      rfl

end SGDET
